import Mathlib

/-!
# Verification of the CE320 fuzzy irrigation controller

Shallow embedding of `src/FuzzyLogic/FuzzyDisplay.cpp` (the Arduino sketch:
rule registration, sensor tasks, display update) together with the parts of
the fuzzy inference engine that the sketch delegates to the external `Fuzzy.h`
library; those engine parts are modelled from the specification, as marked on
each definition.  Crisp sensor values (C++ `float`) are embedded as `ℚ`, with
`Option ℚ` where a value may be NaN (`none` models NaN); raw ADC readings are
`ℕ`; C++ `long` arithmetic is `ℤ` with truncating division.
-/

namespace FuzzyIrrigation

/-- A trapezoidal fuzzy set, the four constructor arguments of the C++
`FuzzySet(a, b, c, d)` used throughout `FuzzyDisplay.cpp` (left foot `a`,
left shoulder `b`, right shoulder `c`, right foot `d`). -/
structure FuzzySet where
  a : ℚ
  b : ℚ
  c : ℚ
  d : ℚ
deriving DecidableEq, Repr

/-- Modelled from the spec: the degree-of-membership function `μ(x)` of a
trapezoidal `FuzzySet` computed by the external fuzzy library (not under
`src/`): 0 below `a` and above `d`; linear ramp from 0 to 1 between `a` and
`b` (1 immediately if `a = b`); 1 on the plateau `[b, c]`; linear ramp from 1
to 0 between `c` and `d` (0 immediately past the plateau if `c = d`). -/
def membership (s : FuzzySet) (x : ℚ) : ℚ :=
  if x < s.a then 0
  else if s.d < x then 0
  else if x < s.b then (x - s.a) / (s.b - s.a)
  else if x ≤ s.c then 1
  else (s.d - x) / (s.d - s.c)

-- The concrete fuzzy sets instantiated at the top of the sketch
-- (`FuzzyDisplay.cpp`, lines 222-237).

def lowTemp : FuzzySet := ⟨-5, -5, 10, 20⟩
def mediumTemp : FuzzySet := ⟨10, 20, 20, 30⟩
def highTemp : FuzzySet := ⟨20, 30, 45, 45⟩

def lowHumidity : FuzzySet := ⟨0, 0, 30, 50⟩
def mediumHumidity : FuzzySet := ⟨30, 50, 50, 70⟩
def highHumidity : FuzzySet := ⟨50, 70, 100, 100⟩

def drySoil : FuzzySet := ⟨0, 0, 20, 35⟩
def moistSoil : FuzzySet := ⟨20, 35, 40, 55⟩
def wetSoil : FuzzySet := ⟨40, 55, 100, 100⟩

def noWater : FuzzySet := ⟨0, 0, 0, 15⟩
def lowWater : FuzzySet := ⟨0, 15, 15, 40⟩
def moderateWater : FuzzySet := ⟨15, 40, 40, 60⟩
def fullWater : FuzzySet := ⟨40, 60, 100, 100⟩

/-- The membership degree is never negative, for any breakpoints: every branch
of the trapezoid formula yields a value `≥ 0` under its own guard. -/
lemma membership_nonneg (s : FuzzySet) (x : ℚ) : 0 ≤ membership s x := by
  unfold membership
  split
  · exact le_refl 0
  · split
    · exact le_refl 0
    · split
      · next hxa _ hxb =>
        push_neg at hxa
        have hab : 0 < s.b - s.a := by linarith
        exact div_nonneg (by linarith) (le_of_lt hab)
      · split
        · exact zero_le_one
        · next hxd _ hxc =>
          push_neg at hxd hxc
          have hcd : 0 < s.d - s.c := by linarith
          exact div_nonneg (by linarith) (le_of_lt hcd)

/-- The membership degree never exceeds 1, for any breakpoints. -/
lemma membership_le_one (s : FuzzySet) (x : ℚ) : membership s x ≤ 1 := by
  unfold membership
  split
  · exact zero_le_one
  · split
    · exact zero_le_one
    · split
      · next hxa _ hxb =>
        push_neg at hxa
        have hab : 0 < s.b - s.a := by linarith
        rw [div_le_one hab]
        linarith
      · split
        · exact le_refl 1
        · next hxd _ hxc =>
          push_neg at hxd hxc
          have hcd : 0 < s.d - s.c := by linarith
          rw [div_le_one hcd]
          linarith

lemma membership_of_lt_left (s : FuzzySet) (x : ℚ) (h : x < s.a) :
    membership s x = 0 := by
  unfold membership
  rw [if_pos h]

lemma membership_of_gt_right (s : FuzzySet) (x : ℚ) (had : s.a ≤ s.d)
    (h : s.d < x) : membership s x = 0 := by
  unfold membership
  rw [if_neg (by push_neg; linarith), if_pos h]

lemma membership_plateau (s : FuzzySet) (x : ℚ) (hab : s.a ≤ s.b)
    (hcd : s.c ≤ s.d) (hbx : s.b ≤ x) (hxc : x ≤ s.c) :
    membership s x = 1 := by
  unfold membership
  rw [if_neg (by push_neg; linarith), if_neg (by push_neg; linarith),
    if_neg (by push_neg; linarith), if_pos hxc]

lemma membership_rampL (s : FuzzySet) (x : ℚ) (hbd : s.b ≤ s.d)
    (hax : s.a ≤ x) (hxb : x < s.b) :
    membership s x = (x - s.a) / (s.b - s.a) := by
  unfold membership
  rw [if_neg (by push_neg; exact hax), if_neg (by push_neg; linarith), if_pos hxb]

lemma membership_rampR (s : FuzzySet) (x : ℚ) (hab : s.a ≤ s.b)
    (hbc : s.b ≤ s.c) (hcx : s.c < x) (hxd : x ≤ s.d) :
    membership s x = (s.d - x) / (s.d - s.c) := by
  unfold membership
  rw [if_neg (by push_neg; linarith), if_neg (by push_neg; exact hxd),
    if_neg (by push_neg; linarith), if_neg (by push_neg; exact hcx)]

/-! ## Rule antecedents

`addRule` in the sketch builds antecedent trees out of the library's
`FuzzyRuleAntecedent` (`joinSingle`, `joinWithAND`).  A leaf pairs an input
variable (1 = temperature, 2 = humidity, 3 = soil moisture, the `FuzzyInput`
ids of the sketch) with one of its fuzzy sets. -/

/-- An antecedent tree: a leaf `(input-variable id, fuzzy set)` or an AND node
over two sub-antecedents, as built by `addRule` via `joinSingle` /
`joinWithAND`. -/
inductive Antecedent where
  | leaf (varId : ℕ) (s : FuzzySet)
  | and (l r : Antecedent)
deriving DecidableEq, Repr

/-- Number of leaves of an antecedent tree. -/
def leafCount : Antecedent → ℕ
  | .leaf _ _ => 1
  | .and l r => leafCount l + leafCount r

/-- Modelled from the spec: `strength()` of the external library's
`FuzzyRuleAntecedent` (not under `src/`): for a leaf, the degree of membership
of the leaf's variable's current crisp value in the leaf's set; for an AND
node, the minimum of the two children's strengths.  `env` maps an input
variable id to its current crisp value. -/
def strength (env : ℕ → ℚ) : Antecedent → ℚ
  | .leaf v s => membership s (env v)
  | .and l r => min (strength env l) (strength env r)

/-- A rule: one antecedent and the single output set its consequent asserts
(the sketch's `FuzzyRule(ruleNum, antecedent, consequent)` where the
consequent holds one output set). -/
structure Rule where
  ant : Antecedent
  out : FuzzySet
deriving DecidableEq, Repr

/-- `addRule(tempSet, humidSet, soilSet, outputSet)` from `FuzzyDisplay.cpp`
lines 309-344, restricted to the antecedent it builds; `none` arguments model
`NULL` pointers and a `none` result models the early `return` (no rule added)
on a zero-input call. -/
def addRule : Option FuzzySet → Option FuzzySet → Option FuzzySet →
    Option Antecedent
  -- inputCount == 0: error printed, early return, no rule added
  | none, none, none => none
  -- inputCount == 1: joinSingle on the one non-NULL set
  | some t, none, none => some (.leaf 1 t)
  | none, some h, none => some (.leaf 2 h)
  | none, none, some s => some (.leaf 3 s)
  -- inputCount == 2: joinWithAND on the two non-NULL sets
  | some t, some h, none => some (.and (.leaf 1 t) (.leaf 2 h))
  | some t, none, some s => some (.and (.leaf 1 t) (.leaf 3 s))
  | none, some h, some s => some (.and (.leaf 2 h) (.leaf 3 s))
  -- inputCount == 3: tempHumid = AND(temp, humid), then AND with soil
  | some t, some h, some s =>
      some (.and (.and (.leaf 1 t) (.leaf 2 h)) (.leaf 3 s))

/-- The full effect of one `addRule` call on the engine's rule collection:
with zero input sets it prints `"Error: Rule needs at least one input set"`
and returns without adding anything (the `Bool` component records that the
error message was printed); otherwise it appends the new rule. -/
def addRuleLogged (rules : List Rule) (tempSet humidSet soilSet : Option FuzzySet)
    (outputSet : FuzzySet) : List Rule × Bool :=
  match addRule tempSet humidSet soilSet with
  | none => (rules, true)
  | some a => (rules ++ [⟨a, outputSet⟩], false)

/-! ## Aggregation and defuzzification (modelled from the spec) -/

/-- Modelled from the spec: the maximum firing strength among all rules whose
consequent targets the output set `S` (rules sharing an output set combine
with max); 0 when no rule targets `S`. -/
def maxStrengthFor (rules : List Rule) (env : ℕ → ℚ) (S : FuzzySet) : ℚ :=
  ((rules.filter (fun r => r.out = S)).map (fun r => strength env r.ant)).foldr max 0

/-- Modelled from the spec: the aggregated activation height at `x` over an
output variable's sets: the union (max) over the sets of each set's clipped
activation, `min` of the set's own membership curve and the max firing
strength targeting it. -/
def aggregatedHeight (outSets : List FuzzySet) (rules : List Rule)
    (env : ℕ → ℚ) (x : ℚ) : ℚ :=
  (outSets.map (fun S => min (membership S x) (maxStrengthFor rules env S))).foldr max 0

/-- Modelled from the spec: centroid defuzzification of an aggregated height
function over the output universe `[lo, hi]`, discretized into `n + 1` evenly
spaced sample points (resolution `n` is configurable); when every sampled
height is 0 the centroid denominator is 0 and the defined fallback, the
midpoint of the universe, is returned instead of dividing by zero. -/
def defuzzify (lo hi : ℚ) (n : ℕ) (height : ℚ → ℚ) : ℚ :=
  let pts : List ℚ := (List.range (n + 1)).map (fun i => lo + (hi - lo) * i / n)
  let den := (pts.map height).sum
  if den = 0 then (lo + hi) / 2
  else (pts.map (fun x => x * height x)).sum / den

/-! ## Scenario A (spec §8): one rule AND-ing lowTemp, lowHumidity, drySoil
to lowWater; crisp inputs temperature = 5, humidity = 10, soil = 10. -/

/-- Scenario A crisp inputs: temperature 5 on variable 1, humidity 10 on
variable 2, soil moisture 10 on variable 3. -/
def scenarioAEnv : ℕ → ℚ := fun v => if v = 1 then 5 else 10

/-- Scenario A's single rule, with the antecedent shape `addRule` builds for
three input sets. -/
def scenarioARule : Rule :=
  ⟨.and (.and (.leaf 1 lowTemp) (.leaf 2 lowHumidity)) (.leaf 3 drySoil), lowWater⟩

/-! ## Claims C1 - C5 -/

/-- C1: for a trapezoid with breakpoints `a ≤ b ≤ c ≤ d` and every crisp `x`,
the membership degree lies in `[0, 1]`; it is 0 below `a` and above `d`, the
ramp `(x-a)/(b-a)` on `[a, b)`, 1 on the whole of `[a, c]` as soon as
`a = b`, 1 on the plateau `[b, c]`, the ramp `(d-x)/(d-c)` on `(c, d]`, and
1 at `d` itself when `c = d`; it is non-decreasing on `[a, b]`, constant on
`[b, c]`, and non-increasing on `[c, d]`. -/
theorem membership_trapezoid_spec (s : FuzzySet)
    (hab : s.a ≤ s.b) (hbc : s.b ≤ s.c) (hcd : s.c ≤ s.d) :
    (∀ x, 0 ≤ membership s x ∧ membership s x ≤ 1) ∧
    (∀ x, x < s.a → membership s x = 0) ∧
    (∀ x, s.d < x → membership s x = 0) ∧
    (∀ x, s.a ≤ x → x < s.b → membership s x = (x - s.a) / (s.b - s.a)) ∧
    (s.a = s.b → ∀ x, s.a ≤ x → x ≤ s.c → membership s x = 1) ∧
    (∀ x, s.b ≤ x → x ≤ s.c → membership s x = 1) ∧
    (∀ x, s.c < x → x ≤ s.d → membership s x = (s.d - x) / (s.d - s.c)) ∧
    (s.c = s.d → membership s s.d = 1) ∧
    (∀ x y, s.a ≤ x → x ≤ y → y ≤ s.b → membership s x ≤ membership s y) ∧
    (∀ x y, s.b ≤ x → x ≤ y → y ≤ s.c → membership s x = membership s y) ∧
    (∀ x y, s.c ≤ x → x ≤ y → y ≤ s.d → membership s y ≤ membership s x) := by
  have hbd : s.b ≤ s.d := le_trans hbc hcd
  have had : s.a ≤ s.d := le_trans hab hbd
  refine ⟨fun x => ⟨membership_nonneg s x, membership_le_one s x⟩,
    fun x hx => membership_of_lt_left s x hx,
    fun x hx => membership_of_gt_right s x had hx,
    fun x hax hxb => membership_rampL s x hbd hax hxb,
    ?_, ?_, ?_, ?_, ?_, ?_, ?_⟩
  · intro hABeq x hax hxc
    exact membership_plateau s x hab hcd (hABeq ▸ hax) hxc
  · intro x hbx hxc
    exact membership_plateau s x hab hcd hbx hxc
  · intro x hcx hxd
    exact membership_rampR s x hab hbc hcx hxd
  · intro hcdEq
    exact membership_plateau s s.d hab hcd (le_trans hbc (le_of_eq hcdEq))
      (le_of_eq hcdEq.symm)
  · intro x y hax hxy hyb
    rcases lt_or_eq_of_le hyb with hyb' | hyb'
    · rw [membership_rampL s x hbd hax (by linarith),
        membership_rampL s y hbd (by linarith) hyb']
      have h0 : (0:ℚ) < s.b - s.a := by linarith
      exact (div_le_div_iff_of_pos_right h0).mpr (by linarith)
    · rw [hyb', membership_plateau s s.b hab hcd (le_refl _) hbc]
      exact membership_le_one s x
  · intro x y hbx hxy hyc
    rw [membership_plateau s x hab hcd hbx (by linarith),
      membership_plateau s y hab hcd (by linarith) hyc]
  · intro x y hcx hxy hyd
    rcases lt_or_eq_of_le hcx with hcx' | hcx'
    · rw [membership_rampR s x hab hbc hcx' (by linarith),
        membership_rampR s y hab hbc (by linarith) hyd]
      have h0 : (0:ℚ) < s.d - s.c := by linarith
      exact (div_le_div_iff_of_pos_right h0).mpr (by linarith)
    · rw [← hcx', membership_plateau s s.c hab hcd hbc (le_refl _)]
      exact membership_le_one s y

/-- Witness for C1: the `lowWater` trapezoid `(0, 15, 15, 40)` at `x = 7`
evaluates to `7/15`, which the theorem bounds by 1. -/
theorem membership_trapezoid_spec_witness :
    membership lowWater 7 = 7 / 15 ∧ membership lowWater 7 ≤ 1 := by
  constructor
  · norm_num [membership, lowWater]
  · exact ((membership_trapezoid_spec lowWater (by norm_num [lowWater])
      (by norm_num [lowWater]) (by norm_num [lowWater])).1 7).2

/-- C2: the strength of a leaf is the membership degree of the leaf's
variable's current crisp value in the leaf's set; the strength of an AND node
is the minimum of its children's strengths; hence a 2-leaf antecedent's
strength never exceeds either leaf's degree. -/
theorem strength_and_min (env : ℕ → ℚ) :
    (∀ v s, strength env (.leaf v s) = membership s (env v)) ∧
    (∀ l r, strength env (.and l r) = min (strength env l) (strength env r)) ∧
    (∀ v1 s1 v2 s2,
      strength env (.and (.leaf v1 s1) (.leaf v2 s2)) ≤ membership s1 (env v1) ∧
      strength env (.and (.leaf v1 s1) (.leaf v2 s2)) ≤ membership s2 (env v2)) :=
  ⟨fun _ _ => rfl, fun _ _ => rfl,
   fun _ _ _ _ => ⟨min_le_left _ _, min_le_right _ _⟩⟩

/-- C3: with the Scenario A configuration (one rule AND-ing `lowTemp`,
`lowHumidity`, `drySoil` to `lowWater`, exactly the antecedent `addRule`
builds) and crisp inputs temperature 5, humidity 10, soil 10, the firing
strength is 1, and the defuzzified output (centroid at resolution 8 over
`lowWater`'s universe `[0, 40]`) is `55/3`, within 4 units of the centroid 15
of `lowWater`'s plateau `[15, 15]`. -/
theorem scenarioA_fires_and_defuzzifies :
    addRule (some lowTemp) (some lowHumidity) (some drySoil) =
      some scenarioARule.ant ∧
    strength scenarioAEnv scenarioARule.ant = 1 ∧
    defuzzify 0 40 8 (aggregatedHeight [lowWater] [scenarioARule] scenarioAEnv)
      = 55 / 3 ∧
    |55 / 3 - (15 : ℚ)| ≤ 4 := by
  refine ⟨rfl, ?_, ?_, by rw [abs_le]; constructor <;> norm_num⟩
  · norm_num [strength, scenarioAEnv, scenarioARule, membership, lowTemp,
      lowHumidity, drySoil]
  · norm_num [defuzzify, List.range_succ, aggregatedHeight, maxStrengthFor,
      strength, scenarioAEnv, scenarioARule, membership, lowTemp, lowHumidity,
      drySoil, lowWater]

/-- C4: every antecedent `addRule` actually builds has as many leaves as
non-NULL input sets, hence exactly 1, 2, or 3 leaves (a rule that ignores a
variable omits it from the AND chain), and with all three sets present the
tree is the nested shape `AND(AND(temp, humid), soil)`. -/
theorem addRule_leafCount (t h s : Option FuzzySet) :
    (addRule t h s = none ↔ t = none ∧ h = none ∧ s = none) ∧
    (∀ a, addRule t h s = some a →
      leafCount a = (if t.isSome then 1 else 0) + (if h.isSome then 1 else 0) +
        (if s.isSome then 1 else 0) ∧
      (leafCount a = 1 ∨ leafCount a = 2 ∨ leafCount a = 3)) ∧
    (∀ mt mh ms, t = some mt → h = some mh → s = some ms →
      addRule t h s = some (.and (.and (.leaf 1 mt) (.leaf 2 mh)) (.leaf 3 ms))) := by
  rcases t with _ | mt <;> rcases h with _ | mh <;> rcases s with _ | ms <;>
    simp [addRule, leafCount]

/-- Witness for C4: the three-set call is built as the nested AND shape with
three leaves. -/
theorem addRule_leafCount_witness :
    addRule (some mediumTemp) (some lowHumidity) (some drySoil) =
      some (.and (.and (.leaf 1 mediumTemp) (.leaf 2 lowHumidity)) (.leaf 3 drySoil)) ∧
    leafCount (.and (.and (.leaf 1 mediumTemp) (.leaf 2 lowHumidity))
      (.leaf 3 drySoil)) = 3 :=
  ⟨(addRule_leafCount (some mediumTemp) (some lowHumidity) (some drySoil)).2.2
    mediumTemp lowHumidity drySoil rfl rfl rfl, rfl⟩

/-- C5 counterexample: an all-NULL `addRule` call does not prevent the engine
from reaching the evaluate phase.  The error is logged (`true` flag for the
`Serial.println`) and the call adds no rule, but the configuration survives
unchanged and a subsequent evaluation still runs and returns a crisp output
(`55/3` under the Scenario A inputs) — nothing fails fast. -/
theorem emptyRule_reaches_evaluate :
    addRuleLogged [scenarioARule] none none none noWater =
      ([scenarioARule], true) ∧
    defuzzify 0 40 8 (aggregatedHeight [lowWater]
      (addRuleLogged [scenarioARule] none none none noWater).1 scenarioAEnv)
      = 55 / 3 := by
  refine ⟨rfl, ?_⟩
  norm_num [defuzzify, List.range_succ, aggregatedHeight, maxStrengthFor,
    addRuleLogged, addRule, strength, scenarioAEnv, scenarioARule, membership,
    lowTemp, lowHumidity, drySoil, lowWater]

/-- C5 amended: a rule with a zero-leaf antecedent is detected at setup time —
`addRule` prints an error message and returns without adding the rule — but
the engine is not stopped: the rule collection is left unchanged and the
evaluate phase still runs with the remaining rules. -/
theorem emptyRule_logged_and_skipped (rules : List Rule) (out : FuzzySet)
    (outSets : List FuzzySet) (env : ℕ → ℚ) (lo hi : ℚ) (n : ℕ) :
    addRule none none none = none ∧
    addRuleLogged rules none none none out = (rules, true) ∧
    defuzzify lo hi n (aggregatedHeight outSets
      (addRuleLogged rules none none none out).1 env) =
      defuzzify lo hi n (aggregatedHeight outSets rules env) :=
  ⟨rfl, rfl, rfl⟩

/-! ## The control loop tasks (src `loop()`, lines 388-455) -/

/-- Arduino `constrain(amt, low, high)`:
`(amt < low) ? low : ((amt > high) ? high : amt)`. -/
def constrain (x lo hi : ℚ) : ℚ :=
  if x < lo then lo else if x > hi then hi else x

/-- C++ float-to-long conversion: truncation toward zero. -/
def truncQ (x : ℚ) : ℤ := if x < 0 then ⌈x⌉ else ⌊x⌋

/-- Arduino `map(x, in_min, in_max, out_min, out_max)` on C++ `long`:
`(x - in_min) * (out_max - out_min) / (in_max - in_min) + out_min`, with the
C++ truncating integer division. -/
def mapArduino (x inMin inMax outMin outMax : ℤ) : ℤ :=
  Int.tdiv ((x - inMin) * (outMax - outMin)) (inMax - inMin) + outMin

/-- `loop()` Task 2 (src lines 406-423): convert a raw ADC reading to a soil
moisture percentage: `(1.0 - raw/4095.0) * 100.0`, forced to 0 when
`raw >= 4095`, then constrained to `[0, 100]`. -/
def soilMoistureFromRaw (raw : ℕ) : ℚ :=
  let calculatedSoilMoisture : ℚ := (1 - (raw : ℚ) / 4095) * 100
  let clamped : ℚ := if 4095 ≤ raw then 0 else calculatedSoilMoisture
  constrain clamped 0 100

/-- `loop()` Task 3 (src lines 425-452): the fuzzy pipeline
(`setInput` ×3, `fuzzify`, `defuzzify`) runs only when all three current
readings are valid (`some`); otherwise the stored pump power is kept and only
the display is refreshed.  The `Bool` records whether the pipeline ran. -/
def logicTask (rules : List Rule) (outSets : List FuzzySet) (lo hi : ℚ)
    (n : ℕ) (temp humid soil : Option ℚ) (pumpPrev : ℚ) : ℚ × Bool :=
  match temp, humid, soil with
  | some t, some h, some s =>
      (defuzzify lo hi n (aggregatedHeight outSets rules
        (fun v => if v = 1 then t else if v = 2 then h else s)), true)
  | _, _, _ => (pumpPrev, false)

/-! ## The display (src `FuzzyDisplay::updateValues`, lines 49-159) -/

/-- The `prev*` members of `FuzzyDisplay`; `none` models a stored NaN,
`some (-9999/10)` is the constructor's initial `-999.9`. -/
structure DisplayState where
  prevTemp : Option ℚ
  prevHumid : Option ℚ
  prevSoil : Option ℚ
  prevPump : Option ℚ
deriving DecidableEq, Repr

/-- The constructor's initial state: all previous values `-999.9` to force the
first draw. -/
def initialDisplay : DisplayState :=
  ⟨some (-9999/10), some (-9999/10), some (-9999/10), some (-9999/10)⟩

/-- The redraw test used for each field of `updateValues`:
`isnan(new) || isnan(prev) || abs(new - prev) > threshold`. -/
def needsRedraw (newVal prevVal : Option ℚ) (threshold : ℚ) : Bool :=
  match newVal, prevVal with
  | none, _ => true
  | _, none => true
  | some nv, some pv => if |nv - pv| > threshold then true else false

/-- Which screen regions one `updateValues` call repaints: the three sensor
value areas, the pump power text area, and the pump bar area. -/
structure RedrawSet where
  temp : Bool
  humid : Bool
  soil : Bool
  pumpValue : Bool
  pumpBar : Bool
deriving DecidableEq, Repr

/-- The pump value printed in the pump power text area (src line 142):
the input clamped to `[0, 100]`; `none` (NaN) prints `"--"` instead of a
number. -/
def pumpDisplayValue (pump : Option ℚ) : Option ℚ :=
  match pump with
  | none => none
  | some p => some (constrain p 0 100)

/-- The pump bar width in pixels (src lines 151-155): 0 for NaN, otherwise
`map(constrain(pump, 0, 100), 0, 100, 0, 140)` after the float-to-long
conversion of the constrained value. -/
def pumpBarWidth (pump : Option ℚ) : ℤ :=
  match pump with
  | none => 0
  | some p => mapArduino (truncQ (constrain p 0 100)) 0 100 0 140

/-- `FuzzyDisplay::updateValues(temp, humid, soil, pump)`: each field is
redrawn, and its stored previous value overwritten, exactly when its redraw
test fires (threshold 0.05 for the sensors, 0.5 for the pump); the bar is
repainted when the pump text was or the stored pump value is the initial
`-999.9`.  Returns the new state and the set of repainted regions. -/
def updateValues (st : DisplayState) (temp humid soil pump : Option ℚ) :
    DisplayState × RedrawSet :=
  let tempRedraw := needsRedraw temp st.prevTemp (5/100)
  let humidRedraw := needsRedraw humid st.prevHumid (5/100)
  let soilRedraw := needsRedraw soil st.prevSoil (5/100)
  let pumpChanged := needsRedraw pump st.prevPump (5/10)
  let prevPump2 := if pumpChanged then pump else st.prevPump
  let barRedraw := pumpChanged ||
    (if prevPump2 = some (-9999/10) then true else false)
  (⟨if tempRedraw then temp else st.prevTemp,
    if humidRedraw then humid else st.prevHumid,
    if soilRedraw then soil else st.prevSoil,
    prevPump2⟩,
   ⟨tempRedraw, humidRedraw, soilRedraw, pumpChanged, barRedraw⟩)

/-! ## Claims C6 - C10 -/

/-- C6: in any control cycle where one of the three current readings is NaN,
the fuzzy pipeline is not entered: no setInput/fuzzify/defuzzify happens, the
inference is skipped, and the stored pump power is unchanged. -/
theorem logicTask_skips_invalid (rules : List Rule) (outSets : List FuzzySet)
    (lo hi : ℚ) (n : ℕ) (temp humid soil : Option ℚ) (pumpPrev : ℚ)
    (h : temp = none ∨ humid = none ∨ soil = none) :
    logicTask rules outSets lo hi n temp humid soil pumpPrev =
      (pumpPrev, false) := by
  rcases temp with _ | t <;> rcases humid with _ | hu <;> rcases soil with _ | so <;>
    first
      | rfl
      | simp at h

/-- Witness for C6: a cycle with a NaN temperature keeps the pump power and
does not run the pipeline. -/
theorem logicTask_skips_invalid_witness :
    logicTask [scenarioARule] [lowWater] 0 40 8 none (some 10) (some 10) 0 =
      (0, false) :=
  logicTask_skips_invalid [scenarioARule] [lowWater] 0 40 8 none (some 10)
    (some 10) 0 (Or.inl rfl)

lemma maxStrengthFor_eq_zero (rules : List Rule) (env : ℕ → ℚ) (S : FuzzySet)
    (h0 : ∀ r ∈ rules, r.out = S → strength env r.ant = 0) :
    maxStrengthFor rules env S = 0 := by
  induction rules with
  | nil => rfl
  | cons r rs ih =>
    have ih2 := ih (fun q hq hqo => h0 q (List.mem_cons_of_mem r hq) hqo)
    unfold maxStrengthFor at ih2 ⊢
    rw [List.filter_cons]
    by_cases hout : r.out = S
    · rw [if_pos (by simpa using hout)]
      simp only [List.map_cons, List.foldr_cons]
      rw [h0 r (List.mem_cons_self r rs) hout, ih2]
      simp
    · rw [if_neg (by simpa using hout)]
      exact ih2

lemma aggregatedHeight_eq_zero (outSets : List FuzzySet) (rules : List Rule)
    (env : ℕ → ℚ) (x : ℚ)
    (h0 : ∀ r ∈ rules, r.out ∈ outSets → strength env r.ant = 0) :
    aggregatedHeight outSets rules env x = 0 := by
  induction outSets with
  | nil => rfl
  | cons S Ss ih =>
    have ih2 := ih (fun q hq hqo => h0 q hq (List.mem_cons_of_mem S hqo))
    unfold aggregatedHeight at ih2 ⊢
    simp only [List.map_cons, List.foldr_cons]
    rw [maxStrengthFor_eq_zero rules env S
      (fun q hq hqo => h0 q hq (by rw [hqo]; exact List.mem_cons_self S Ss)), ih2]
    rw [min_eq_right (membership_nonneg S x)]
    simp

/-- C7: in a cycle where every rule targeting the output variable's sets has
firing strength 0, every sampled aggregated height is 0, the centroid
denominator is 0, and `defuzzify` returns the defined fallback — the midpoint
of the output universe — rather than dividing by zero; the result is an
ordinary rational, never NaN, and no exception is possible. -/
theorem defuzzify_noFire_fallback (outSets : List FuzzySet) (rules : List Rule)
    (env : ℕ → ℚ) (lo hi : ℚ) (n : ℕ)
    (h0 : ∀ r ∈ rules, r.out ∈ outSets → strength env r.ant = 0) :
    defuzzify lo hi n (aggregatedHeight outSets rules env) = (lo + hi) / 2 := by
  have hz : ∀ pts : List ℚ,
      (pts.map (aggregatedHeight outSets rules env)).sum = 0 := by
    intro pts
    induction pts with
    | nil => rfl
    | cons p ps ih =>
      simp [aggregatedHeight_eq_zero outSets rules env p h0, ih]
  unfold defuzzify
  simp only [hz, if_pos]

/-- Witness for C7: Scenario A's rule under crisp inputs 1000 everywhere
(outside every set) fires with strength 0 and defuzzification falls back to
the universe midpoint 20. -/
theorem defuzzify_noFire_fallback_witness :
    defuzzify 0 40 8 (aggregatedHeight [lowWater] [scenarioARule]
      (fun _ => 1000)) = (0 + 40) / 2 := by
  apply defuzzify_noFire_fallback
  intro r hr _
  simp only [List.mem_singleton] at hr
  subst hr
  norm_num [strength, scenarioARule, membership, lowTemp, lowHumidity, drySoil,
    min_def]

lemma needsRedraw_iff (newVal prevVal : Option ℚ) (th : ℚ) :
    needsRedraw newVal prevVal th = true ↔
      newVal = none ∨ prevVal = none ∨
        ∃ nv pv, newVal = some nv ∧ prevVal = some pv ∧ |nv - pv| > th := by
  rcases newVal with _ | nv <;> rcases prevVal with _ | pv <;>
    simp [needsRedraw]

/-- C8: in `updateValues` each field's screen region is repainted and its
stored previous value overwritten exactly when the new value or the stored
previous value is NaN or they differ by more than 0.05 (more than 0.5 for the
pump field); otherwise that region is untouched and the stored value kept. -/
theorem updateValues_redraw_iff (st : DisplayState)
    (temp humid soil pump : Option ℚ) :
    ((updateValues st temp humid soil pump).2.temp = true ↔
      temp = none ∨ st.prevTemp = none ∨
        ∃ nv pv, temp = some nv ∧ st.prevTemp = some pv ∧ |nv - pv| > 5/100) ∧
    ((updateValues st temp humid soil pump).1.prevTemp =
      if (updateValues st temp humid soil pump).2.temp then temp
      else st.prevTemp) ∧
    ((updateValues st temp humid soil pump).2.humid = true ↔
      humid = none ∨ st.prevHumid = none ∨
        ∃ nv pv, humid = some nv ∧ st.prevHumid = some pv ∧ |nv - pv| > 5/100) ∧
    ((updateValues st temp humid soil pump).1.prevHumid =
      if (updateValues st temp humid soil pump).2.humid then humid
      else st.prevHumid) ∧
    ((updateValues st temp humid soil pump).2.soil = true ↔
      soil = none ∨ st.prevSoil = none ∨
        ∃ nv pv, soil = some nv ∧ st.prevSoil = some pv ∧ |nv - pv| > 5/100) ∧
    ((updateValues st temp humid soil pump).1.prevSoil =
      if (updateValues st temp humid soil pump).2.soil then soil
      else st.prevSoil) ∧
    ((updateValues st temp humid soil pump).2.pumpValue = true ↔
      pump = none ∨ st.prevPump = none ∨
        ∃ nv pv, pump = some nv ∧ st.prevPump = some pv ∧ |nv - pv| > 5/10) ∧
    ((updateValues st temp humid soil pump).1.prevPump =
      if (updateValues st temp humid soil pump).2.pumpValue then pump
      else st.prevPump) := by
  refine ⟨needsRedraw_iff temp st.prevTemp (5/100), rfl,
    needsRedraw_iff humid st.prevHumid (5/100), rfl,
    needsRedraw_iff soil st.prevSoil (5/100), rfl,
    needsRedraw_iff pump st.prevPump (5/10), rfl⟩

lemma constrain_mem (x lo hi : ℚ) (h : lo ≤ hi) :
    lo ≤ constrain x lo hi ∧ constrain x lo hi ≤ hi := by
  unfold constrain
  split
  · exact ⟨le_refl lo, h⟩
  · split
    · exact ⟨h, le_refl hi⟩
    · next h1 h2 =>
      push_neg at h1 h2
      exact ⟨h1, h2⟩

/-- C9: the printed pump value is the input clamped to `[0, 100]`; the bar
width is `map(constrain(pump, 0, 100), 0, 100, 0, 140)` and lies in
`[0, 140]` for every finite pump value; a NaN pump prints `"--"` (no numeric
value) and draws a bar of width 0. -/
theorem pumpRender_bounds :
    (∀ p : ℚ, pumpDisplayValue (some p) = some (constrain p 0 100) ∧
      0 ≤ constrain p 0 100 ∧ constrain p 0 100 ≤ 100 ∧
      pumpBarWidth (some p) =
        mapArduino (truncQ (constrain p 0 100)) 0 100 0 140 ∧
      0 ≤ pumpBarWidth (some p) ∧ pumpBarWidth (some p) ≤ 140) ∧
    pumpDisplayValue none = none ∧ pumpBarWidth none = 0 := by
  refine ⟨fun p => ?_, rfl, rfl⟩
  obtain ⟨hlo, hhi⟩ := constrain_mem p 0 100 (by norm_num)
  have ht0 : 0 ≤ truncQ (constrain p 0 100) := by
    unfold truncQ
    rw [if_neg (by push_neg; exact hlo)]
    exact Int.floor_nonneg.mpr hlo
  have ht100 : truncQ (constrain p 0 100) ≤ 100 := by
    unfold truncQ
    rw [if_neg (by push_neg; exact hlo)]
    calc ⌊constrain p 0 100⌋ ≤ ⌊(100 : ℚ)⌋ := Int.floor_le_floor hhi
    _ = 100 := by norm_num
  refine ⟨rfl, hlo, hhi, rfl, ?_, ?_⟩
  · show 0 ≤ mapArduino (truncQ (constrain p 0 100)) 0 100 0 140
    unfold mapArduino
    simp only [sub_zero, add_zero]
    exact Int.tdiv_nonneg (by positivity) (by norm_num)
  · show mapArduino (truncQ (constrain p 0 100)) 0 100 0 140 ≤ 140
    unfold mapArduino
    simp only [sub_zero, add_zero]
    rw [Int.tdiv_eq_ediv (by positivity) (by norm_num)]
    calc (truncQ (constrain p 0 100) * 140) / 100 ≤ 14000 / 100 :=
          Int.ediv_le_ediv (by norm_num) (by nlinarith)
    _ = 140 := by norm_num

/-- C10: Task 2 stores `constrain((1 - raw/4095)*100, 0, 100)` for every raw
reading in `[0, 4095]`, always a value in `[0, 100]`; a raw reading of 4095
or more stores exactly 0, and a raw reading of 0 stores 100. -/
theorem soilMoisture_conversion (raw : ℕ) :
    (raw ≤ 4095 → soilMoistureFromRaw raw =
      constrain ((1 - (raw : ℚ) / 4095) * 100) 0 100) ∧
    0 ≤ soilMoistureFromRaw raw ∧ soilMoistureFromRaw raw ≤ 100 ∧
    (4095 ≤ raw → soilMoistureFromRaw raw = 0) ∧
    (raw = 0 → soilMoistureFromRaw raw = 100) := by
  refine ⟨?_, ?_, ?_, ?_, ?_⟩
  · intro hle
    simp only [soilMoistureFromRaw]
    by_cases hge : 4095 ≤ raw
    · have : raw = 4095 := le_antisymm hle hge
      subst this
      norm_num
    · rw [if_neg hge]
  · exact (constrain_mem _ 0 100 (by norm_num)).1
  · exact (constrain_mem _ 0 100 (by norm_num)).2
  · intro hge
    simp only [soilMoistureFromRaw]
    rw [if_pos hge]
    norm_num [constrain]
  · intro h0
    subst h0
    norm_num [soilMoistureFromRaw, constrain]

/-- Witness for C10: a raw reading of 0 stores 100, a raw reading of 4095
stores 0. -/
theorem soilMoisture_conversion_witness :
    soilMoistureFromRaw 0 = 100 ∧ soilMoistureFromRaw 4095 = 0 :=
  ⟨(soilMoisture_conversion 0).2.2.2.2 rfl,
   (soilMoisture_conversion 4095).2.2.2.1 (le_refl 4095)⟩

end FuzzyIrrigation
